import Mathlib

/-!
Verification of the icon-generation script `assets/icon/generate_icons.py`.

The script is a straight-line Python program that builds three raster images
(notebook glyph plus a circular lock badge) with the Pillow drawing API and
writes them to disk.  We embed it shallowly:

* CPython floating point: the script computes sizes such as `int(size * 0.7)`.
  CPython floats are IEEE-754 binary64 values.  We model a binary64 value as a
  dyadic rational `m * 2 ^ e` (structure `Fp`) and rounding to 53 significant
  bits with round-to-nearest, ties-to-even (`roundFp`, `ratRoundF`).  The
  exponent is unbounded: the program's magnitudes stay far away from binary64
  overflow and subnormal ranges, where this model agrees exactly with IEEE-754.
  Only nonnegative values arise in the program, and `roundFp` is defined on
  that domain (via `Int.toNat`).
* Every Pillow drawing call becomes a `DrawOp` value recording the exact
  arguments the script passes; each generator returns a `PILImage` holding the
  canvas mode, size, background fill and the ordered list of drawing ops.
* Pixel semantics (`renderPixel`) is an idealized rasterizer: an op paints all
  pixels of its footprint (`covers`) with its fill colour.  Footprints are the
  inclusive bounding box for rectangles, the inscribed disc for ellipses, and
  for arcs a ring of the given stroke width restricted to the upper half for
  the 180..0 degree range used by the script (an arc of width 0 paints
  nothing).  The script always passes outline colours equal to fill colours,
  so fill-only rendering is faithful.
* The top-level control flow (import guard, `main`) becomes a pure event
  trace (`runScript`): printed lines, directory creations, file writes with
  their images, and the exit code.
-/

namespace IconGen

/-! ## Evaluation lemmas for `Nat.log2` -/

theorem log2_step (n : ℕ) (h : 2 ≤ n) : Nat.log2 n = Nat.log2 (n / 2) + 1 := by
  rw [Nat.log2]; simp [h]

theorem log2_small (n : ℕ) (h : n < 2) : Nat.log2 n = 0 := by
  rw [Nat.log2]; simp [Nat.not_le.mpr h]

/-! ## Binary64 model -/

/-- A binary floating-point value `m * 2 ^ e` (unbounded exponent). -/
structure Fp where
  m : ℤ
  e : ℤ
deriving DecidableEq

/-- The rational value denoted by a floating-point datum. -/
def Fp.val (x : Fp) : ℚ := (x.m : ℚ) * (2 : ℚ) ^ x.e

/-- Floor of the base-2 logarithm of the positive rational `n / d`. -/
def ratLog2 (n d : ℕ) : ℤ :=
  if d ≤ n then (Nat.log2 (n / d) : ℤ)
  else if d ≤ n * 2 ^ Nat.log2 (d / n) then -(Nat.log2 (d / n) : ℤ)
  else -((Nat.log2 (d / n) : ℤ) + 1)

/-- The binary64 value of the positive rational `n / d`: round to a 53-bit
significand, nearest, ties to even.  This interprets the decimal literals of
the script (for example `0.7` becomes `ratRoundF 7 10`). -/
def ratRoundF (n d : ℕ) : Fp :=
  let e : ℤ := ratLog2 n d
  let N : ℕ := if 0 ≤ 52 - e then n * 2 ^ (52 - e).toNat else n
  let D : ℕ := if 0 ≤ 52 - e then d else d * 2 ^ (e - 52).toNat
  let m0 := N / D
  let r := N % D
  let m : ℕ :=
    if D < 2 * r then m0 + 1
    else if 2 * r < D then m0
    else if m0 % 2 = 0 then m0 else m0 + 1
  ⟨(m : ℤ), e - 52⟩

/-- Round the integer `a` at position `2 ^ s`: nearest multiple of `2 ^ s`,
ties to the even multiple, divided by `2 ^ s`. -/
def roundMant (a s : ℕ) : ℕ :=
  let q := a / 2 ^ s
  let r := a % 2 ^ s
  let half := 2 ^ (s - 1)
  if half < r then q + 1
  else if r < half then q
  else if q % 2 = 0 then q else q + 1

/-- Round a dyadic value with nonnegative mantissa to a 53-bit significand
(nearest, ties to even).  This is the rounding binary64 arithmetic performs
after an exact integer load or an exact product of two values. -/
def roundFp (x : Fp) : Fp :=
  let a := x.m.toNat
  let bl := Nat.log2 a
  if bl ≤ 52 then x
  else ⟨(roundMant a (bl - 52) : ℤ), x.e + ((bl - 52 : ℕ) : ℤ)⟩

/-- Binary64 multiplication: the exact product, rounded. -/
def fmulFp (x y : Fp) : Fp := roundFp ⟨x.m * y.m, x.e + y.e⟩

/-- CPython conversion of a (nonnegative) integer to a float. -/
def intToFp (n : ℤ) : Fp := roundFp ⟨n, 0⟩

/-- CPython `int()` applied to a (nonnegative) float: truncation toward zero.
`Int` division truncates toward zero, matching CPython on the nonnegative
values this program produces. -/
def truncFp (x : Fp) : ℤ :=
  if 0 ≤ x.e then x.m * 2 ^ x.e.toNat else x.m / (2 ^ (-x.e).toNat : ℤ)

/-- The value of the Python expression `int(n * c)` for an `int` value `n` and
a float literal `c`. -/
def pyIntTimes (n : ℤ) (c : Fp) : ℤ := truncFp (fmulFp (intToFp n) c)

/-- The float literal `0.4`. -/
def lit04 : Fp := ratRoundF 4 10

/-- The float literal `0.35`. -/
def lit035 : Fp := ratRoundF 35 100

/-- The float literal `0.6`. -/
def lit06 : Fp := ratRoundF 6 10

/-- The float literal `0.7`. -/
def lit07 : Fp := ratRoundF 7 10

/-- The float literal `0.68`. -/
def lit068 : Fp := ratRoundF 68 100

/-- The float literal `0.075`. -/
def lit075 : Fp := ratRoundF 75 1000

/-- The float literal `0.09`. -/
def lit09 : Fp := ratRoundF 9 100

theorem lit04_eq : lit04 = ⟨7205759403792794, -54⟩ := by
  norm_num [lit04, ratRoundF, ratLog2, log2_step, log2_small]
  simp only [Int.reduceToNat]
  norm_num

theorem lit035_eq : lit035 = ⟨6305039478318694, -54⟩ := by
  norm_num [lit035, ratRoundF, ratLog2, log2_step, log2_small]
  simp only [Int.reduceToNat]
  norm_num

theorem lit06_eq : lit06 = ⟨5404319552844595, -53⟩ := by
  norm_num [lit06, ratRoundF, ratLog2, log2_step, log2_small]
  simp only [Int.reduceToNat]
  norm_num

theorem lit07_eq : lit07 = ⟨6305039478318694, -53⟩ := by
  norm_num [lit07, ratRoundF, ratLog2, log2_step, log2_small]
  simp only [Int.reduceToNat]
  norm_num

theorem lit068_eq : lit068 = ⟨6124895493223875, -53⟩ := by
  norm_num [lit068, ratRoundF, ratLog2, log2_step, log2_small]
  simp only [Int.reduceToNat]
  norm_num

theorem lit075_eq : lit075 = ⟨5404319552844595, -56⟩ := by
  norm_num [lit075, ratRoundF, ratLog2, log2_step, log2_small]
  simp only [Int.reduceToNat]
  norm_num

theorem lit09_eq : lit09 = ⟨6485183463413514, -56⟩ := by
  norm_num [lit09, ratRoundF, ratLog2, log2_step, log2_small]
  simp only [Int.reduceToNat]
  norm_num

/-! ## A kernel-computable clone of the model, for concrete evaluation

`Nat.log2` is defined by well-founded recursion, which the kernel does not
reduce.  `log2Fuel` is a structurally recursive variant, provably equal to
`Nat.log2` on inputs below `2 ^ fuel`; `pyIntTimesK` is `pyIntTimes` with
`Nat.log2` replaced by `log2Fuel 128`, valid on the bounded operands this
program uses, and it lets concrete values be computed by `decide`. -/

def log2Fuel : ℕ → ℕ → ℕ
  | 0, _ => 0
  | f + 1, n => if 2 ≤ n then log2Fuel f (n / 2) + 1 else 0

theorem log2Fuel_eq (f n : ℕ) (h : n < 2 ^ f) : log2Fuel f n = Nat.log2 n := by
  induction f generalizing n with
  | zero =>
    have : n = 0 := by simpa using h
    simp [this, log2Fuel, log2_small]
  | succ f ih =>
    by_cases h2 : 2 ≤ n
    · have hd : n / 2 < 2 ^ f := by
        rw [Nat.div_lt_iff_lt_mul (by norm_num)]
        calc n < 2 ^ (f + 1) := h
        _ = 2 ^ f * 2 := by rw [pow_succ]
      simp only [log2Fuel, if_pos h2, ih (n / 2) hd, log2_step n h2]
    · simp [log2Fuel, h2, log2_small n (by omega)]

/-- `roundFp` with the fuelled logarithm. -/
def roundFpK (x : Fp) : Fp :=
  let a := x.m.toNat
  let bl := log2Fuel 128 a
  if bl ≤ 52 then x
  else ⟨(roundMant a (bl - 52) : ℤ), x.e + ((bl - 52 : ℕ) : ℤ)⟩

/-- `pyIntTimes` with the fuelled logarithm. -/
def pyIntTimesK (n : ℤ) (c : Fp) : ℤ :=
  truncFp (roundFpK ⟨(roundFpK ⟨n, 0⟩).m * c.m, (roundFpK ⟨n, 0⟩).e + c.e⟩)

theorem roundFpK_eq (x : Fp) (h : x.m < 2 ^ 128) : roundFpK x = roundFp x := by
  have ht : x.m.toNat < 2 ^ 128 := by omega
  simp only [roundFpK, roundFp, log2Fuel_eq 128 _ ht]

theorem roundMant_le (a s : ℕ) (h : a / 2 ^ s < 2 ^ 53) : roundMant a s ≤ 2 ^ 53 := by
  rw [roundMant]
  split
  · omega
  · split
    · omega
    · split <;> omega

/-- The rounded mantissa never exceeds `2 ^ 53`. -/
theorem roundFp_m_le (x : Fp) : (roundFp x).m ≤ 2 ^ 53 := by
  rw [roundFp]
  by_cases hbl : Nat.log2 x.m.toNat ≤ 52
  · simp only [if_pos hbl]
    have : x.m.toNat < 2 ^ 53 := by
      calc x.m.toNat < 2 ^ (Nat.log2 x.m.toNat + 1) := Nat.lt_log2_self
      _ ≤ 2 ^ 53 := Nat.pow_le_pow_right (by norm_num) (by omega)
    omega
  · simp only [if_neg hbl]
    have hq : x.m.toNat / 2 ^ (Nat.log2 x.m.toNat - 52) < 2 ^ 53 := by
      rw [Nat.div_lt_iff_lt_mul (Nat.pos_pow_of_pos _ (by norm_num))]
      calc x.m.toNat < 2 ^ (Nat.log2 x.m.toNat + 1) := Nat.lt_log2_self
      _ = 2 ^ 53 * 2 ^ (Nat.log2 x.m.toNat - 52) := by
          rw [← pow_add]
          congr 1
          omega
    have := roundMant_le x.m.toNat (Nat.log2 x.m.toNat - 52) hq
    exact_mod_cast this

/-- The rounded mantissa stays nonnegative. -/
theorem roundFp_m_nonneg (x : Fp) (h : 0 ≤ x.m) : 0 ≤ (roundFp x).m := by
  rw [roundFp]
  split
  · exact h
  · positivity

theorem pyIntTimes_evalK (n : ℤ) (c : Fp) (hn0 : 0 ≤ n) (hn : n < 2 ^ 64)
    (hc0 : 0 ≤ c.m) (hc : c.m ≤ 2 ^ 53) : pyIntTimes n c = pyIntTimesK n c := by
  have h1 : roundFpK ⟨n, 0⟩ = roundFp ⟨n, 0⟩ := roundFpK_eq _ (by simpa using hn.trans (by norm_num))
  have hm1 : (roundFp ⟨n, 0⟩).m ≤ 2 ^ 53 := roundFp_m_le _
  have hm0 : 0 ≤ (roundFp ⟨n, 0⟩).m := roundFp_m_nonneg _ (by simpa using hn0)
  have h2 : (roundFp ⟨n, 0⟩).m * c.m < 2 ^ 128 := by
    calc (roundFp ⟨n, 0⟩).m * c.m ≤ 2 ^ 53 * 2 ^ 53 := by
          exact mul_le_mul hm1 hc hc0 (by norm_num)
    _ < 2 ^ 128 := by norm_num
  rw [pyIntTimes, pyIntTimesK, h1, fmulFp, intToFp,
    roundFpK_eq ⟨(roundFp ⟨n, 0⟩).m * c.m, (roundFp ⟨n, 0⟩).e + c.e⟩ h2]

/-! ## Relative-error bounds for the float model -/

/-- The unit roundoff of binary64: `2 ^ (-53)`. -/
def epsF : ℚ := (2 : ℚ) ^ (-(53 : ℤ))

theorem epsF_pos : 0 < epsF := by
  rw [epsF]
  positivity

theorem epsF_lt_one : epsF < 1 := by
  rw [epsF]
  norm_num [zpow_neg]

/-- Rounding the mantissa moves it by at most half of the rounding unit. -/
theorem roundMant_err (a s : ℕ) (hs : 1 ≤ s) :
    (roundMant a s : ℤ) * 2 ^ s - a ≤ 2 ^ (s - 1) ∧
      (a : ℤ) - roundMant a s * 2 ^ s ≤ 2 ^ (s - 1) := by
  have hZ : ((2 : ℤ) ^ s) = ((2 ^ s : ℕ) : ℤ) := by push_cast; ring
  have hZ1 : ((2 : ℤ) ^ (s - 1)) = ((2 ^ (s - 1) : ℕ) : ℤ) := by push_cast; ring
  rw [roundMant, hZ, hZ1]
  set S := (2 : ℕ) ^ s with hS
  set H := (2 : ℕ) ^ (s - 1) with hH
  set q := a / S with hq
  set r := a % S with hr
  have hpos : 0 < S := by rw [hS]; positivity
  have hd : r < S := Nat.mod_lt _ hpos
  have hqr : S * q + r = a := Nat.div_add_mod a S
  have h2 : S = 2 * H := by
    rw [hS, hH]
    have hs1 : s - 1 + 1 = s := by omega
    conv_lhs => rw [← hs1]
    rw [pow_succ]
    ring
  have hH0 : 0 ≤ (H : ℤ) := by positivity
  zify at hd hqr h2
  by_cases hb1 : H < r
  · have hb1Z : (H : ℤ) < r := by exact_mod_cast hb1
    simp only [if_pos hb1]
    constructor <;> push_cast <;> nlinarith [hd, hqr, h2, hb1Z]
  · by_cases hb2 : r < H
    · have hb2Z : (r : ℤ) < H := by exact_mod_cast hb2
      simp only [if_neg hb1, if_pos hb2]
      constructor <;> push_cast <;> nlinarith [hd, hqr, h2, hb2Z]
    · have htie : (r : ℤ) = H := by
        have h1 : ¬ (H : ℤ) < r := by exact_mod_cast hb1
        have h2' : ¬ (r : ℤ) < H := by exact_mod_cast hb2
        omega
      simp only [if_neg hb1, if_neg hb2]
      by_cases hb3 : q % 2 = 0
      · simp only [if_pos hb3]
        constructor <;> push_cast <;> nlinarith [hd, hqr, h2, htie, hH0]
      · simp only [if_neg hb3]
        constructor <;> push_cast <;> nlinarith [hd, hqr, h2, htie, hH0]

theorem fp_val_nonneg (x : Fp) (h : 0 ≤ x.m) : 0 ≤ x.val := by
  rw [Fp.val]
  have : (0 : ℚ) < (2 : ℚ) ^ x.e := by positivity
  have hm : (0 : ℚ) ≤ (x.m : ℚ) := by exact_mod_cast h
  positivity

theorem roundFp_val_bounds (x : Fp) (h : 0 ≤ x.m) :
    x.val * (1 - epsF) ≤ (roundFp x).val ∧ (roundFp x).val ≤ x.val * (1 + epsF) := by
  have hv0 : 0 ≤ x.val := fp_val_nonneg x h
  have he : 0 < epsF := epsF_pos
  rw [roundFp]
  by_cases hbl : Nat.log2 x.m.toNat ≤ 52
  · simp only [if_pos hbl]
    constructor <;> nlinarith
  · simp only [if_neg hbl]
    set a := x.m.toNat with ha
    set s := Nat.log2 a - 52 with hsdef
    have hs : 1 ≤ s := by omega
    have ha0 : a ≠ 0 := by
      intro h0
      rw [h0] at hbl
      exact hbl (by simp [log2_small])
    have haof : (x.m : ℚ) = (a : ℚ) := by
      rw [ha]
      exact_mod_cast (Int.toNat_of_nonneg h).symm
    have hage : 2 ^ (52 + s) ≤ a := by
      have h1 : 2 ^ Nat.log2 a ≤ a := Nat.log2_self_le ha0
      have h2 : 52 + s = Nat.log2 a := by omega
      rw [h2]
      exact h1
    -- the value of the rounded datum minus the value of x
    have hsplit : (2 : ℚ) ^ (x.e + (s : ℤ)) = (2 : ℚ) ^ x.e * (2 : ℚ) ^ (s : ℕ) := by
      rw [zpow_add₀ (by norm_num : (2 : ℚ) ≠ 0)]
      rw [zpow_natCast]
    have hE : (0 : ℚ) < (2 : ℚ) ^ x.e := by positivity
    have herr := roundMant_err a s hs
    have herrQ1 : (roundMant a s : ℚ) * 2 ^ (s : ℕ) - a ≤ 2 ^ (s - 1 : ℕ) := by
      exact_mod_cast herr.1
    have herrQ2 : (a : ℚ) - roundMant a s * 2 ^ (s : ℕ) ≤ 2 ^ (s - 1 : ℕ) := by
      exact_mod_cast herr.2
    have hkey : (2 : ℚ) ^ (s - 1 : ℕ) ≤ (a : ℚ) * epsF := by
      have h1 : ((2 : ℕ) ^ (52 + s) : ℚ) ≤ (a : ℚ) := by exact_mod_cast hage
      have h2 : (2 : ℚ) ^ (s - 1 : ℕ) = (2 : ℚ) ^ (52 + s : ℕ) * epsF := by
        rw [epsF, ← zpow_natCast (2 : ℚ) (s - 1), ← zpow_natCast (2 : ℚ) (52 + s),
          ← zpow_add₀ (by norm_num : (2 : ℚ) ≠ 0)]
        congr 1
        omega
      rw [h2]
      have : ((2 : ℕ) ^ (52 + s) : ℚ) = (2 : ℚ) ^ (52 + s : ℕ) := by push_cast; ring
      nlinarith
    have hval : x.val = (a : ℚ) * (2 : ℚ) ^ x.e := by rw [Fp.val, haof]
    have hRval : Fp.val ⟨(roundMant a s : ℤ), x.e + (s : ℤ)⟩ =
        ((roundMant a s : ℚ) * 2 ^ (s : ℕ)) * (2 : ℚ) ^ x.e := by
      simp only [Fp.val]
      push_cast
      rw [hsplit]
      ring
    have ha0Q : (0 : ℚ) ≤ (a : ℚ) := by positivity
    have low : (a : ℚ) * (1 - epsF) ≤ (roundMant a s : ℚ) * 2 ^ (s : ℕ) := by
      nlinarith [herrQ2, hkey]
    have high : (roundMant a s : ℚ) * 2 ^ (s : ℕ) ≤ (a : ℚ) * (1 + epsF) := by
      nlinarith [herrQ1, hkey]
    constructor
    · calc x.val * (1 - epsF) = ((a : ℚ) * (1 - epsF)) * (2 : ℚ) ^ x.e := by
            rw [hval]; ring
      _ ≤ ((roundMant a s : ℚ) * 2 ^ (s : ℕ)) * (2 : ℚ) ^ x.e :=
            mul_le_mul_of_nonneg_right low hE.le
      _ = Fp.val ⟨(roundMant a s : ℤ), x.e + (s : ℤ)⟩ := by rw [hRval]
    · calc Fp.val ⟨(roundMant a s : ℤ), x.e + (s : ℤ)⟩
          = ((roundMant a s : ℚ) * 2 ^ (s : ℕ)) * (2 : ℚ) ^ x.e := by rw [hRval]
      _ ≤ ((a : ℚ) * (1 + epsF)) * (2 : ℚ) ^ x.e :=
            mul_le_mul_of_nonneg_right high hE.le
      _ = x.val * (1 + epsF) := by rw [hval]; ring

theorem truncFp_bounds (x : Fp) (h : 0 ≤ x.m) :
    (truncFp x : ℚ) ≤ x.val ∧ x.val - 1 < (truncFp x : ℚ) := by
  rw [truncFp, Fp.val]
  split
  · rename_i he
    have hcast : ((x.m * 2 ^ x.e.toNat : ℤ) : ℚ) = (x.m : ℚ) * (2 : ℚ) ^ x.e := by
      push_cast
      rw [← zpow_natCast (2 : ℚ) x.e.toNat, Int.toNat_of_nonneg he]
    rw [hcast]
    constructor
    · exact le_refl _
    · linarith
  · rename_i he
    set k := (-x.e).toNat with hk
    set Q := x.m / (2 ^ k : ℤ) with hQdef
    set R := x.m % (2 ^ k : ℤ) with hRdef
    have hke : x.e = -(k : ℤ) := by omega
    have hPk : (0 : ℤ) < 2 ^ k := by positivity
    have hdm : 2 ^ k * Q + R = x.m := Int.ediv_add_emod _ _
    have hm0 : 0 ≤ R := Int.emod_nonneg _ (by positivity)
    have hmlt : R < 2 ^ k := Int.emod_lt_of_pos _ hPk
    have hP : (0 : ℚ) < (2 : ℚ) ^ k := by positivity
    have hzp : (2 : ℚ) ^ x.e = ((2 : ℚ) ^ k)⁻¹ := by
      rw [hke, zpow_neg, zpow_natCast]
    have hdmQ : (2 : ℚ) ^ k * (Q : ℚ) + (R : ℚ) = (x.m : ℚ) := by
      exact_mod_cast congrArg (fun z : ℤ => (z : ℚ)) hdm
    have hm0Q : (0 : ℚ) ≤ (R : ℚ) := by exact_mod_cast hm0
    have hmltQ : (R : ℚ) < (2 : ℚ) ^ k := by exact_mod_cast hmlt
    rw [hzp, ← div_eq_mul_inv]
    constructor
    · rw [le_div_iff hP]
      linarith
    · rw [sub_lt_iff_lt_add, div_lt_iff hP]
      nlinarith

/-- The value of an exact product datum. -/
theorem fp_mul_val (m1 m2 e1 e2 : ℤ) :
    Fp.val ⟨m1 * m2, e1 + e2⟩ = Fp.val ⟨m1, e1⟩ * Fp.val ⟨m2, e2⟩ := by
  simp only [Fp.val]
  rw [zpow_add₀ (by norm_num : (2 : ℚ) ≠ 0)]
  push_cast
  ring

theorem intToFp_val_bounds (n : ℤ) (h : 0 ≤ n) :
    (n : ℚ) * (1 - epsF) ≤ (intToFp n).val ∧ (intToFp n).val ≤ (n : ℚ) * (1 + epsF) := by
  have := roundFp_val_bounds ⟨n, 0⟩ (by simpa using h)
  have hv : Fp.val ⟨n, 0⟩ = (n : ℚ) := by simp [Fp.val]
  rw [intToFp]
  rw [hv] at this
  exact this

theorem pyIntTimes_nonneg (n : ℤ) (c : Fp) (hn : 0 ≤ n) (hc : 0 ≤ c.m) :
    0 ≤ pyIntTimes n c := by
  rw [pyIntTimes, fmulFp, intToFp]
  have h1 : 0 ≤ (roundFp ⟨n, 0⟩).m := roundFp_m_nonneg _ (by simpa using hn)
  have h2 : 0 ≤ (roundFp ⟨(roundFp ⟨n, 0⟩).m * c.m, (roundFp ⟨n, 0⟩).e + c.e⟩).m :=
    roundFp_m_nonneg _ (by simpa using mul_nonneg h1 hc)
  rw [truncFp]
  split
  · positivity
  · exact Int.ediv_nonneg h2 (by positivity)

/-- Two-sided bound on the Python expression `int(n * c)` in terms of the
exact rational product, accounting for the three roundings. -/
theorem pyIntTimes_bounds (n : ℤ) (c : Fp) (hn : 0 ≤ n) (hc : 0 ≤ c.m) :
    (n : ℚ) * c.val * (1 - epsF) ^ 2 - 1 < (pyIntTimes n c : ℚ) ∧
      (pyIntTimes n c : ℚ) ≤ (n : ℚ) * c.val * (1 + epsF) ^ 2 := by
  have hnQ : (0 : ℚ) ≤ (n : ℚ) := by exact_mod_cast hn
  have hcv : 0 ≤ c.val := fp_val_nonneg c hc
  have he : 0 < epsF := epsF_pos
  have he1 : epsF < 1 := epsF_lt_one
  have h1 := intToFp_val_bounds n hn
  have hm1 : 0 ≤ (intToFp n).m := roundFp_m_nonneg _ (by simpa using hn)
  have hv1 : 0 ≤ (intToFp n).val := fp_val_nonneg _ hm1
  have hprodval : Fp.val ⟨(intToFp n).m * c.m, (intToFp n).e + c.e⟩ =
      (intToFp n).val * c.val := by
    rw [fp_mul_val]
  have hpm : 0 ≤ (intToFp n).m * c.m := mul_nonneg hm1 hc
  have h2 := roundFp_val_bounds ⟨(intToFp n).m * c.m, (intToFp n).e + c.e⟩ (by simpa using hpm)
  rw [hprodval] at h2
  have hm2 : 0 ≤ (roundFp ⟨(intToFp n).m * c.m, (intToFp n).e + c.e⟩).m :=
    roundFp_m_nonneg _ (by simpa using hpm)
  have h3 := truncFp_bounds _ hm2
  have hpit : pyIntTimes n c = truncFp (roundFp ⟨(intToFp n).m * c.m, (intToFp n).e + c.e⟩) := by
    rw [pyIntTimes, fmulFp]
  rw [hpit]
  have hfac1 : (0 : ℚ) ≤ c.val * (1 - epsF) := mul_nonneg hcv (by linarith)
  have hfac2 : (0 : ℚ) ≤ c.val * (1 + epsF) := mul_nonneg hcv (by linarith)
  constructor
  · nlinarith [h2.1, h3.2, mul_le_mul_of_nonneg_right h1.1 hfac1]
  · nlinarith [h2.2, h3.1, mul_le_mul_of_nonneg_right h1.2 hfac2]

/-! ## Concrete values of the script's size expressions -/

theorem pit_1024_04 : pyIntTimes 1024 lit04 = 409 := by
  rw [lit04_eq, pyIntTimes_evalK _ _ (by norm_num) (by norm_num) (by norm_num) (by norm_num)]
  decide

theorem pit_1024_07 : pyIntTimes 1024 lit07 = 716 := by
  rw [lit07_eq, pyIntTimes_evalK _ _ (by norm_num) (by norm_num) (by norm_num) (by norm_num)]
  decide

theorem pit_1024_075 : pyIntTimes 1024 lit075 = 76 := by
  rw [lit075_eq, pyIntTimes_evalK _ _ (by norm_num) (by norm_num) (by norm_num) (by norm_num)]
  decide

theorem pit_409_06 : pyIntTimes 409 lit06 = 245 := by
  rw [lit06_eq, pyIntTimes_evalK _ _ (by norm_num) (by norm_num) (by norm_num) (by norm_num)]
  decide

theorem pit_76_06 : pyIntTimes 76 lit06 = 45 := by
  rw [lit06_eq, pyIntTimes_evalK _ _ (by norm_num) (by norm_num) (by norm_num) (by norm_num)]
  decide

theorem pit_512_035 : pyIntTimes 512 lit035 = 179 := by
  rw [lit035_eq, pyIntTimes_evalK _ _ (by norm_num) (by norm_num) (by norm_num) (by norm_num)]
  decide

theorem pit_512_068 : pyIntTimes 512 lit068 = 348 := by
  rw [lit068_eq, pyIntTimes_evalK _ _ (by norm_num) (by norm_num) (by norm_num) (by norm_num)]
  decide

theorem pit_512_09 : pyIntTimes 512 lit09 = 46 := by
  rw [lit09_eq, pyIntTimes_evalK _ _ (by norm_num) (by norm_num) (by norm_num) (by norm_num)]
  decide

theorem pit_179_06 : pyIntTimes 179 lit06 = 107 := by
  rw [lit06_eq, pyIntTimes_evalK _ _ (by norm_num) (by norm_num) (by norm_num) (by norm_num)]
  decide

theorem pit_46_06 : pyIntTimes 46 lit06 = 27 := by
  rw [lit06_eq, pyIntTimes_evalK _ _ (by norm_num) (by norm_num) (by norm_num) (by norm_num)]
  decide

theorem pit_8_06 : pyIntTimes 8 lit06 = 4 := by
  rw [lit06_eq, pyIntTimes_evalK _ _ (by norm_num) (by norm_num) (by norm_num) (by norm_num)]
  decide

theorem pit_100_06 : pyIntTimes 100 lit06 = 60 := by
  rw [lit06_eq, pyIntTimes_evalK _ _ (by norm_num) (by norm_num) (by norm_num) (by norm_num)]
  decide

theorem pit_6_06 : pyIntTimes 6 lit06 = 3 := by
  rw [lit06_eq, pyIntTimes_evalK _ _ (by norm_num) (by norm_num) (by norm_num) (by norm_num)]
  decide

theorem pit_16_04 : pyIntTimes 16 lit04 = 6 := by
  rw [lit04_eq, pyIntTimes_evalK _ _ (by norm_num) (by norm_num) (by norm_num) (by norm_num)]
  decide

theorem pit_16_07 : pyIntTimes 16 lit07 = 11 := by
  rw [lit07_eq, pyIntTimes_evalK _ _ (by norm_num) (by norm_num) (by norm_num) (by norm_num)]
  decide

theorem pit_16_075 : pyIntTimes 16 lit075 = 1 := by
  rw [lit075_eq, pyIntTimes_evalK _ _ (by norm_num) (by norm_num) (by norm_num) (by norm_num)]
  decide

theorem pit_1_06 : pyIntTimes 1 lit06 = 0 := by
  rw [lit06_eq, pyIntTimes_evalK _ _ (by norm_num) (by norm_num) (by norm_num) (by norm_num)]
  decide

theorem pit_3_06 : pyIntTimes 3 lit06 = 1 := by
  rw [lit06_eq, pyIntTimes_evalK _ _ (by norm_num) (by norm_num) (by norm_num) (by norm_num)]
  decide

theorem pit_1_07 : pyIntTimes 1 lit07 = 0 := by
  rw [lit07_eq, pyIntTimes_evalK _ _ (by norm_num) (by norm_num) (by norm_num) (by norm_num)]
  decide

theorem pit_2_07 : pyIntTimes 2 lit07 = 1 := by
  rw [lit07_eq, pyIntTimes_evalK _ _ (by norm_num) (by norm_num) (by norm_num) (by norm_num)]
  decide

theorem pit_3_07 : pyIntTimes 3 lit07 = 2 := by
  rw [lit07_eq, pyIntTimes_evalK _ _ (by norm_num) (by norm_num) (by norm_num) (by norm_num)]
  decide

theorem pit_4_07 : pyIntTimes 4 lit07 = 2 := by
  rw [lit07_eq, pyIntTimes_evalK _ _ (by norm_num) (by norm_num) (by norm_num) (by norm_num)]
  decide

theorem pit_1_075 : pyIntTimes 1 lit075 = 0 := by
  rw [lit075_eq, pyIntTimes_evalK _ _ (by norm_num) (by norm_num) (by norm_num) (by norm_num)]
  decide

theorem pit_2_075 : pyIntTimes 2 lit075 = 0 := by
  rw [lit075_eq, pyIntTimes_evalK _ _ (by norm_num) (by norm_num) (by norm_num) (by norm_num)]
  decide

theorem pit_3_075 : pyIntTimes 3 lit075 = 0 := by
  rw [lit075_eq, pyIntTimes_evalK _ _ (by norm_num) (by norm_num) (by norm_num) (by norm_num)]
  decide

theorem pit_4_075 : pyIntTimes 4 lit075 = 0 := by
  rw [lit075_eq, pyIntTimes_evalK _ _ (by norm_num) (by norm_num) (by norm_num) (by norm_num)]
  decide

theorem pit_1_068 : pyIntTimes 1 lit068 = 0 := by
  rw [lit068_eq, pyIntTimes_evalK _ _ (by norm_num) (by norm_num) (by norm_num) (by norm_num)]
  decide

theorem pit_2_068 : pyIntTimes 2 lit068 = 1 := by
  rw [lit068_eq, pyIntTimes_evalK _ _ (by norm_num) (by norm_num) (by norm_num) (by norm_num)]
  decide

theorem pit_3_068 : pyIntTimes 3 lit068 = 2 := by
  rw [lit068_eq, pyIntTimes_evalK _ _ (by norm_num) (by norm_num) (by norm_num) (by norm_num)]
  decide

theorem pit_4_068 : pyIntTimes 4 lit068 = 2 := by
  rw [lit068_eq, pyIntTimes_evalK _ _ (by norm_num) (by norm_num) (by norm_num) (by norm_num)]
  decide

theorem pit_1_09 : pyIntTimes 1 lit09 = 0 := by
  rw [lit09_eq, pyIntTimes_evalK _ _ (by norm_num) (by norm_num) (by norm_num) (by norm_num)]
  decide

theorem pit_2_09 : pyIntTimes 2 lit09 = 0 := by
  rw [lit09_eq, pyIntTimes_evalK _ _ (by norm_num) (by norm_num) (by norm_num) (by norm_num)]
  decide

theorem pit_3_09 : pyIntTimes 3 lit09 = 0 := by
  rw [lit09_eq, pyIntTimes_evalK _ _ (by norm_num) (by norm_num) (by norm_num) (by norm_num)]
  decide

theorem pit_4_09 : pyIntTimes 4 lit09 = 0 := by
  rw [lit09_eq, pyIntTimes_evalK _ _ (by norm_num) (by norm_num) (by norm_num) (by norm_num)]
  decide

/-! ## Rational values of the literal constants -/

theorem lit04_val : lit04.val = 7205759403792794 / 18014398509481984 := by
  rw [lit04_eq, Fp.val]
  norm_num [zpow_neg]

theorem lit035_val : lit035.val = 6305039478318694 / 18014398509481984 := by
  rw [lit035_eq, Fp.val]
  norm_num [zpow_neg]

theorem lit06_val : lit06.val = 5404319552844595 / 9007199254740992 := by
  rw [lit06_eq, Fp.val]
  norm_num [zpow_neg]

theorem lit07_val : lit07.val = 6305039478318694 / 9007199254740992 := by
  rw [lit07_eq, Fp.val]
  norm_num [zpow_neg]

theorem lit068_val : lit068.val = 6124895493223875 / 9007199254740992 := by
  rw [lit068_eq, Fp.val]
  norm_num [zpow_neg]

theorem lit075_val : lit075.val = 5404319552844595 / 72057594037927936 := by
  rw [lit075_eq, Fp.val]
  norm_num [zpow_neg]

theorem lit09_val : lit09.val = 6485183463413514 / 72057594037927936 := by
  rw [lit09_eq, Fp.val]
  norm_num [zpow_neg]

/-- Linear-coefficient bounds on `int(s * c)`: whenever the rational bounds
`lo, hi` absorb the worst-case float rounding, `lo * s - 1 < int(s * c) ≤ hi * s`. -/
theorem pit_coeff (s : ℤ) (c : Fp) (lo hi : ℚ) (hs : 0 ≤ s) (hc : 0 ≤ c.m)
    (hlo : lo ≤ c.val * (1 - epsF) ^ 2) (hhi : c.val * (1 + epsF) ^ 2 ≤ hi) :
    lo * s - 1 < (pyIntTimes s c : ℚ) ∧ (pyIntTimes s c : ℚ) ≤ hi * s := by
  have h := pyIntTimes_bounds s c hs hc
  have hsQ : (0 : ℚ) ≤ (s : ℚ) := by exact_mod_cast hs
  constructor
  · nlinarith [h.1, mul_le_mul_of_nonneg_right hlo hsQ]
  · nlinarith [h.2, mul_le_mul_of_nonneg_right hhi hsQ]

/-! ## The drawing layer of the script

Colours are channel lists, mirroring the Python tuples.  Python's floor
division `//` on `int` is `Int.fdiv`. -/

/-- The script constant `BG_COLOR = (26, 26, 46)`. -/
def BG_COLOR : List ℤ := [26, 26, 46]

/-- The script constant `WHITE = (255, 255, 255)`. -/
def WHITE : List ℤ := [255, 255, 255]

/-- The script constant `GREEN = (76, 175, 80)`. -/
def GREEN : List ℤ := [76, 175, 80]

/-- One Pillow drawing call with the exact arguments the script passes:
inclusive bounding boxes `x0 y0 x1 y1`, fill and optional outline colours,
and for `arc` the start/end angles (degrees) and stroke width. -/
inductive DrawOp
  | rectangle (x0 y0 x1 y1 : ℤ) (fill : List ℤ) (outline : Option (List ℤ))
  | ellipse (x0 y0 x1 y1 : ℤ) (fill : List ℤ) (outline : Option (List ℤ))
  | arc (x0 y0 x1 y1 : ℤ) (angStart angEnd : ℤ) (fill : List ℤ) (width : ℤ)
deriving DecidableEq

/-- `draw_notebook`: the book body rectangle. -/
def notebookBody (x y size : ℤ) (color : List ℤ) : DrawOp :=
  .rectangle (x - size.fdiv 2) (y - size.fdiv 2) (x + size.fdiv 2) (y + size.fdiv 2)
    color (some color)

/-- `draw_notebook`: the spine shadow strip along the left edge. -/
def notebookSpine (x y size : ℤ) : DrawOp :=
  .rectangle (x - size.fdiv 2) (y - size.fdiv 2)
    (x - size.fdiv 2 + size.fdiv 10) (y + size.fdiv 2)
    [200, 200, 200] (some [200, 200, 200])

/-- `draw_notebook`: page line number `i` (the loop runs `i = 0, 1, 2`). -/
def pageLine (x y size : ℤ) (i : ℤ) : DrawOp :=
  .rectangle (x - size.fdiv 2 + size.fdiv 5)
    (y + (i - 1) * size.fdiv 6 - (size.fdiv 25).fdiv 2)
    (x - size.fdiv 2 + size.fdiv 5 + pyIntTimes size lit06)
    (y + (i - 1) * size.fdiv 6 + (size.fdiv 25).fdiv 2)
    [230, 230, 230] none

/-- The ops issued by `draw_notebook(draw, x, y, size, color)`, in call order. -/
def draw_notebook (x y size : ℤ) (color : List ℤ) : List DrawOp :=
  [notebookBody x y size color, notebookSpine x y size] ++
    (List.range 3).map (fun i => pageLine x y size (i : ℤ))

/-- `draw_lock_badge`: the badge circle. -/
def lockCircle (x y size : ℤ) : DrawOp :=
  .ellipse (x - size) (y - size) (x + size) (y + size) GREEN (some GREEN)

/-- `draw_lock_badge`: the white lock-body rectangle. -/
def lockBody (x y size : ℤ) : DrawOp :=
  .rectangle (x - (size.fdiv 2).fdiv 2) (y - (pyIntTimes size lit06).fdiv 4)
    (x - (size.fdiv 2).fdiv 2 + size.fdiv 2)
    (y - (pyIntTimes size lit06).fdiv 4 + (pyIntTimes size lit06).fdiv 2)
    WHITE none

/-- `draw_lock_badge`: the shackle arc (`180` to `0` degrees, width `size // 7`). -/
def lockShackle (x y size : ℤ) : DrawOp :=
  .arc (x - (size.fdiv 2).fdiv 3)
    (y - (pyIntTimes size lit06).fdiv 2 - (size.fdiv 2).fdiv 3)
    (x + (size.fdiv 2).fdiv 3)
    (y - (pyIntTimes size lit06).fdiv 4)
    180 0 WHITE (size.fdiv 7)

/-- `draw_lock_badge`: the keyhole dot at the badge centre. -/
def lockKeyhole (x y size : ℤ) : DrawOp :=
  .ellipse (x - size.fdiv 8) (y - size.fdiv 8) (x + size.fdiv 8) (y + size.fdiv 8)
    GREEN none

/-- The ops issued by `draw_lock_badge(draw, x, y, size)`, in call order. -/
def draw_lock_badge (x y size : ℤ) : List DrawOp :=
  [lockCircle x y size, lockBody x y size, lockShackle x y size, lockKeyhole x y size]

/-- Pillow canvas mode. -/
inductive PILMode
  | RGB
  | RGBA
deriving DecidableEq

/-- A generated image: canvas mode, dimensions, the background passed to
`Image.new`, and the drawing ops applied to it in order. -/
structure PILImage where
  mode : PILMode
  width : ℤ
  height : ℤ
  bg : List ℤ
  ops : List DrawOp
deriving DecidableEq

/-- `generate_app_icon(size)`: opaque RGB canvas filled with `BG_COLOR`,
notebook at the centre with glyph size `int(size * 0.4)`, lock badge at
`(int(size * 0.7), int(size * 0.7))` with badge size `int(size * 0.075)`. -/
def generate_app_icon (size : ℤ) : PILImage :=
  { mode := .RGB, width := size, height := size, bg := BG_COLOR,
    ops := draw_notebook (size.fdiv 2) (size.fdiv 2) (pyIntTimes size lit04) WHITE ++
      draw_lock_badge (pyIntTimes size lit07) (pyIntTimes size lit07)
        (pyIntTimes size lit075) }

/-- `generate_foreground_icon(size)`: fully transparent RGBA canvas, same
drawing calls as the app icon. -/
def generate_foreground_icon (size : ℤ) : PILImage :=
  { mode := .RGBA, width := size, height := size, bg := [0, 0, 0, 0],
    ops := draw_notebook (size.fdiv 2) (size.fdiv 2) (pyIntTimes size lit04) WHITE ++
      draw_lock_badge (pyIntTimes size lit07) (pyIntTimes size lit07)
        (pyIntTimes size lit075) }

/-- `generate_splash_icon(size)`: transparent RGBA canvas, glyph size
`int(size * 0.35)`, badge at `(int(size * 0.68), int(size * 0.68))` with badge
size `int(size * 0.09)`. -/
def generate_splash_icon (size : ℤ) : PILImage :=
  { mode := .RGBA, width := size, height := size, bg := [0, 0, 0, 0],
    ops := draw_notebook (size.fdiv 2) (size.fdiv 2) (pyIntTimes size lit035) WHITE ++
      draw_lock_badge (pyIntTimes size lit068) (pyIntTimes size lit068)
        (pyIntTimes size lit09) }

/-! ## Idealized rasterization -/

/-- Membership of pixel `(px, py)` in the filled ellipse inscribed in the
inclusive box `[x0, x1] x [y0, y1]`. -/
def ellipseHits (x0 y0 x1 y1 px py : ℤ) : Bool :=
  decide (x0 ≤ px) && decide (px ≤ x1) && decide (y0 ≤ py) && decide (py ≤ y1) &&
    decide ((2 * px - x0 - x1) ^ 2 * (y1 - y0) ^ 2 +
      (2 * py - y0 - y1) ^ 2 * (x1 - x0) ^ 2 ≤ (x1 - x0) ^ 2 * (y1 - y0) ^ 2)

/-- The footprint of a drawing op: which pixels it paints.  Rectangles paint
their inclusive box, ellipses their inscribed disc.  An arc paints a ring of
the given stroke width (nothing if the width is not positive); the `180..0`
degree range used by this script is the upper half, other ranges are
approximated by the full ring (the script never issues them). -/
def covers (op : DrawOp) (px py : ℤ) : Bool :=
  match op with
  | .rectangle x0 y0 x1 y1 _ _ =>
      decide (x0 ≤ px) && decide (px ≤ x1) && decide (y0 ≤ py) && decide (py ≤ y1)
  | .ellipse x0 y0 x1 y1 _ _ => ellipseHits x0 y0 x1 y1 px py
  | .arc x0 y0 x1 y1 a0 a1 _ w =>
      decide (1 ≤ w) && ellipseHits x0 y0 x1 y1 px py &&
        !ellipseHits (x0 + w) (y0 + w) (x1 - w) (y1 - w) px py &&
        (if a0 = 180 ∧ a1 = 0 then decide (2 * py ≤ y0 + y1) else true)

/-- The fill colour of an op. -/
def fillOf : DrawOp → List ℤ
  | .rectangle _ _ _ _ fill _ => fill
  | .ellipse _ _ _ _ fill _ => fill
  | .arc _ _ _ _ _ _ fill _ => fill

/-- An RGB colour as stored on a canvas of the given mode: Pillow extends it
with an opaque alpha channel on an RGBA canvas. -/
def drawnColor (mode : PILMode) (c : List ℤ) : List ℤ :=
  match mode with
  | .RGB => c
  | .RGBA => c ++ [255]

/-- The channel values of pixel `(px, py)` after all ops are applied, starting
from the background fill.  (The script always passes outline colours equal to
the fill, so fill-only painting is faithful.) -/
def renderPixel (img : PILImage) (px py : ℤ) : List ℤ :=
  img.ops.foldl
    (fun acc op => if covers op px py then drawnColor img.mode (fillOf op) else acc)
    img.bg

/-- The alpha value of a rendered pixel; an RGB canvas has no alpha channel
and is fully opaque. -/
def alphaAt (img : PILImage) (px py : ℤ) : ℤ :=
  match img.mode with
  | .RGB => 255
  | .RGBA => (renderPixel img px py).getD 3 0

/-- The centre of an op's bounding box. -/
def opBoxCenter (op : DrawOp) : ℤ × ℤ :=
  match op with
  | .rectangle x0 y0 x1 y1 _ _ => ((x0 + x1).fdiv 2, (y0 + y1).fdiv 2)
  | .ellipse x0 y0 x1 y1 _ _ => ((x0 + x1).fdiv 2, (y0 + y1).fdiv 2)
  | .arc x0 y0 x1 y1 _ _ _ _ => ((x0 + x1).fdiv 2, (y0 + y1).fdiv 2)

theorem opBoxCenter_lockCircle (x y size : ℤ) :
    opBoxCenter (lockCircle x y size) = (x, y) := by
  rw [lockCircle, opBoxCenter]
  have hx : x - size + (x + size) = 2 * x := by ring
  have hy : y - size + (y + size) = 2 * y := by ring
  rw [hx, hy, Int.mul_fdiv_cancel_left _ (by norm_num), Int.mul_fdiv_cancel_left _ (by norm_num)]

/-- A pixel painted by no op keeps the background fill. -/
theorem renderPixel_untouched (img : PILImage) (px py : ℤ)
    (h : ∀ op ∈ img.ops, covers op px py = false) :
    renderPixel img px py = img.bg := by
  rw [renderPixel]
  suffices haux : ∀ (l : List DrawOp) (b : List ℤ), (∀ op ∈ l, covers op px py = false) →
      l.foldl (fun acc op => if covers op px py then drawnColor img.mode (fillOf op) else acc)
        b = b by
    exact haux _ _ h
  intro l
  induction l with
  | nil => intro b _; rfl
  | cons hd tl ih =>
    intro b hall
    rw [List.foldl_cons, if_neg (by simp [hall hd (List.mem_cons_self hd tl)])]
    exact ih b fun op hop => hall op (List.mem_cons_of_mem hd hop)

/-! ## The top level of the script as an event trace -/

/-- One observable effect of the script: a printed line, a `makedirs` call,
a saved image file, or a process exit. -/
inductive ScriptEvent
  | emit (line : String)
  | makedirs (path : List String) (exist_ok : Bool)
  | save (path : List String) (img : PILImage)
  | exitWith (code : ℕ)
deriving DecidableEq

/-- The events of `main()`: `script_dir` is the directory containing the
script, as a list of path components; `os.path.dirname` drops the last one. -/
def pymain (script_dir : List String) : List ScriptEvent :=
  [.emit ("🎨 Generating Encrypted Notebook icons..."),
   .emit ("  📱 Generating app_icon.png (1024x1024)..."),
   .save (script_dir ++ [("app_icon.png")]) (generate_app_icon 1024),
   .emit ("  🎭 Generating app_icon_foreground.png (1024x1024)..."),
   .save (script_dir ++ [("app_icon_foreground.png")]) (generate_foreground_icon 1024),
   .emit ("  💫 Generating splash_icon.png (512x512)..."),
   .makedirs (script_dir.dropLast ++ [("splash")]) true,
   .save (script_dir.dropLast ++ [("splash"), ("splash_icon.png")])
     (generate_splash_icon 512),
   .emit ("✅ All icons generated successfully!"),
   .emit ("\nNext steps:"),
   .emit ("  1. Run: flutter pub get"),
   .emit ("  2. Run: flutter pub run flutter_launcher_icons"),
   .emit ("  3. Run: flutter pub run flutter_native_splash:create"),
   .emit ("  4. Run: flutter run")]

/-- The whole script: if the Pillow import fails, the module-level guard
prints the two remediation lines and exits with status 1; otherwise `main()`
runs. -/
def runScript (pillow_available : Bool) (script_dir : List String) : List ScriptEvent :=
  if pillow_available then pymain script_dir
  else
    [.emit ("Error: Pillow library not found."),
     .emit ("Install it with: pip install pillow"),
     .exitWith 1]

/-- The paths of the files a run saves, in order. -/
def savedPaths (evs : List ScriptEvent) : List (List String) :=
  evs.filterMap fun ev =>
    match ev with
    | .save p _ => some p
    | _ => none

/-- The images a run saves, in order. -/
def savedImages (evs : List ScriptEvent) : List PILImage :=
  evs.filterMap fun ev =>
    match ev with
    | .save _ img => some img
    | _ => none

/-- The directory-creation calls of a run, in order. -/
def madeDirs (evs : List ScriptEvent) : List (List String × Bool) :=
  evs.filterMap fun ev =>
    match ev with
    | .makedirs p ok => some (p, ok)
    | _ => none

/-- The lines a run prints, in order. -/
def printedLines (evs : List ScriptEvent) : List String :=
  evs.filterMap fun ev =>
    match ev with
    | .emit s => some s
    | _ => none

/-- The exit codes a run requests. -/
def exitCodes (evs : List ScriptEvent) : List ℕ :=
  evs.filterMap fun ev =>
    match ev with
    | .exitWith c => some c
    | _ => none

/-! ## Helpers for the claim theorems -/

theorem fdiv_pos_bounds (a b : ℤ) (hb : 0 < b) :
    b * a.fdiv b ≤ a ∧ a < b * a.fdiv b + b := by
  rw [Int.fdiv_eq_ediv _ hb.le]
  have h1 := Int.ediv_add_emod a b
  have h2 := Int.emod_nonneg a (ne_of_gt hb)
  have h3 := Int.emod_lt_of_pos a hb
  omega

theorem lit04_m_nonneg : 0 ≤ lit04.m := by rw [lit04_eq]; decide

theorem lit035_m_nonneg : 0 ≤ lit035.m := by rw [lit035_eq]; decide

theorem lit06_m_nonneg : 0 ≤ lit06.m := by rw [lit06_eq]; decide

theorem lit07_m_nonneg : 0 ≤ lit07.m := by rw [lit07_eq]; decide

theorem lit068_m_nonneg : 0 ≤ lit068.m := by rw [lit068_eq]; decide

theorem lit075_m_nonneg : 0 ≤ lit075.m := by rw [lit075_eq]; decide

theorem lit09_m_nonneg : 0 ≤ lit09.m := by rw [lit09_eq]; decide

/-! ## The claims -/

/-- C1: for every size `s > 0`, two calls of each generator with the same size
produce identical images, pixel for pixel: each generator is a pure function
of the requested size and the fixed colour constants, with no randomness or
external state (the embedding of each generator is a function of the size
alone). -/
theorem c1_generators_deterministic (s1 s2 : ℤ) (h : 0 < s1) (hev : s1 = s2) :
    generate_app_icon s1 = generate_app_icon s2 ∧
    generate_foreground_icon s1 = generate_foreground_icon s2 ∧
    generate_splash_icon s1 = generate_splash_icon s2 ∧
    (∀ px py : ℤ, renderPixel (generate_app_icon s1) px py =
      renderPixel (generate_app_icon s2) px py) ∧
    (∀ px py : ℤ, renderPixel (generate_foreground_icon s1) px py =
      renderPixel (generate_foreground_icon s2) px py) ∧
    (∀ px py : ℤ, renderPixel (generate_splash_icon s1) px py =
      renderPixel (generate_splash_icon s2) px py) := by
  subst hev
  exact ⟨rfl, rfl, rfl, fun _ _ => rfl, fun _ _ => rfl, fun _ _ => rfl⟩

theorem c1_generators_deterministic_witness :
    (0 : ℤ) < 1024 ∧
    (generate_app_icon 1024 = generate_app_icon 1024 ∧
    generate_foreground_icon 1024 = generate_foreground_icon 1024 ∧
    generate_splash_icon 1024 = generate_splash_icon 1024 ∧
    (∀ px py : ℤ, renderPixel (generate_app_icon 1024) px py =
      renderPixel (generate_app_icon 1024) px py) ∧
    (∀ px py : ℤ, renderPixel (generate_foreground_icon 1024) px py =
      renderPixel (generate_foreground_icon 1024) px py) ∧
    (∀ px py : ℤ, renderPixel (generate_splash_icon 1024) px py =
      renderPixel (generate_splash_icon 1024) px py)) :=
  ⟨by norm_num, c1_generators_deterministic 1024 1024 (by norm_num) rfl⟩

/-- C4: if the Pillow import fails at startup, the script prints exactly the
two remediation lines and exits with status 1; the trace contains no file
write, no image and no directory creation (nothing is drawn). -/
theorem c4_import_guard (d : List String) :
    runScript false d =
      [ScriptEvent.emit ("Error: Pillow library not found."),
       ScriptEvent.emit ("Install it with: pip install pillow"),
       ScriptEvent.exitWith 1] ∧
    printedLines (runScript false d) =
      [("Error: Pillow library not found."), ("Install it with: pip install pillow")] ∧
    exitCodes (runScript false d) = [1] ∧
    savedPaths (runScript false d) = [] ∧
    savedImages (runScript false d) = [] ∧
    madeDirs (runScript false d) = [] :=
  ⟨rfl, rfl, rfl, rfl, rfl, rfl⟩

/-- C8: a complete run writes exactly three image files — `app_icon.png` and
`app_icon_foreground.png` in the script's directory and `splash_icon.png`
in the sibling `splash/` directory — and issues exactly one `makedirs` for
`splash/` with `exist_ok=True` (created only if absent); no other file is
written. -/
theorem c8_output_files (d : List String) :
    savedPaths (runScript true d) =
      [d ++ [("app_icon.png")], d ++ [("app_icon_foreground.png")],
       d.dropLast ++ [("splash"), ("splash_icon.png")]] ∧
    savedImages (runScript true d) =
      [generate_app_icon 1024, generate_foreground_icon 1024, generate_splash_icon 512] ∧
    madeDirs (runScript true d) = [(d.dropLast ++ [("splash")], true)] ∧
    exitCodes (runScript true d) = [] :=
  ⟨rfl, rfl, rfl, rfl⟩

/-- C5: `generate_foreground_icon(s)` performs exactly the same drawing
operations with the same geometric parameters as `generate_app_icon(s)` —
notebook of size `int(0.4*s)` at the canvas centre, badge at
`(int(0.7*s), int(0.7*s))` with size `int(0.075*s)` — and differs only in the
canvas: a fully transparent RGBA surface instead of an opaque RGB surface
filled with the background colour. -/
theorem c5_foreground_matches_app (s : ℤ) (h : 0 < s) :
    (generate_foreground_icon s).ops = (generate_app_icon s).ops ∧
    (generate_app_icon s).ops =
      draw_notebook (s.fdiv 2) (s.fdiv 2) (pyIntTimes s lit04) WHITE ++
        draw_lock_badge (pyIntTimes s lit07) (pyIntTimes s lit07) (pyIntTimes s lit075) ∧
    (generate_app_icon s).mode = PILMode.RGB ∧
    (generate_app_icon s).bg = BG_COLOR ∧
    (generate_foreground_icon s).mode = PILMode.RGBA ∧
    (generate_foreground_icon s).bg = [0, 0, 0, 0] ∧
    (generate_foreground_icon s).width = (generate_app_icon s).width ∧
    (generate_foreground_icon s).height = (generate_app_icon s).height :=
  ⟨rfl, rfl, rfl, rfl, rfl, rfl, rfl, rfl⟩

theorem c5_foreground_matches_app_witness :
    (0 : ℤ) < 1024 ∧
    ((generate_foreground_icon 1024).ops = (generate_app_icon 1024).ops ∧
    (generate_app_icon 1024).ops =
      draw_notebook ((1024 : ℤ).fdiv 2) ((1024 : ℤ).fdiv 2) (pyIntTimes 1024 lit04) WHITE ++
        draw_lock_badge (pyIntTimes 1024 lit07) (pyIntTimes 1024 lit07)
          (pyIntTimes 1024 lit075) ∧
    (generate_app_icon 1024).mode = PILMode.RGB ∧
    (generate_app_icon 1024).bg = BG_COLOR ∧
    (generate_foreground_icon 1024).mode = PILMode.RGBA ∧
    (generate_foreground_icon 1024).bg = [0, 0, 0, 0] ∧
    (generate_foreground_icon 1024).width = (generate_app_icon 1024).width ∧
    (generate_foreground_icon 1024).height = (generate_app_icon 1024).height) :=
  ⟨by norm_num, c5_foreground_matches_app 1024 (by norm_num)⟩

/-- C2 counterexample: at size 1024 the app icon's badge circle is drawn at
centre `(716, 716)` — the float product `1024 * 0.7 = 716.799...` truncated by
`int` — whereas `round(0.7 * 1024) = 717`, so the badge centre is not
`(round(0.7*s), round(0.7*s))`. -/
theorem c2_badge_center_cex :
    (generate_app_icon 1024).ops =
      draw_notebook 512 512 409 WHITE ++ draw_lock_badge 716 716 76 ∧
    opBoxCenter (lockCircle 716 716 76) = (716, 716) ∧
    round ((7 : ℚ) / 10 * 1024) = 717 ∧
    ((716 : ℤ), (716 : ℤ)) ≠ ((717 : ℤ), (717 : ℤ)) := by
  refine ⟨?_, opBoxCenter_lockCircle 716 716 76, ?_, by decide⟩
  · have h2 : (1024 : ℤ).fdiv 2 = 512 := by decide
    simp only [generate_app_icon, pit_1024_04, pit_1024_07, pit_1024_075, h2]
  · rw [round_eq, Int.floor_eq_iff]
    constructor <;> norm_num

/-- C2 amended: the lock badge of `generate_app_icon(s)` is centred at
`(int(s * 0.7), int(s * 0.7))` and that of `generate_splash_icon(s)` at
`(int(s * 0.68), int(s * 0.68))`, where `int` truncates the binary64 product
(for example `(716, 716)` rather than `(717, 717)` at `s = 1024`). -/
theorem c2_badge_center_amended (s : ℤ) (h : 0 < s) :
    (generate_app_icon s).ops =
      draw_notebook (s.fdiv 2) (s.fdiv 2) (pyIntTimes s lit04) WHITE ++
        draw_lock_badge (pyIntTimes s lit07) (pyIntTimes s lit07) (pyIntTimes s lit075) ∧
    opBoxCenter (lockCircle (pyIntTimes s lit07) (pyIntTimes s lit07)
      (pyIntTimes s lit075)) = (pyIntTimes s lit07, pyIntTimes s lit07) ∧
    (generate_splash_icon s).ops =
      draw_notebook (s.fdiv 2) (s.fdiv 2) (pyIntTimes s lit035) WHITE ++
        draw_lock_badge (pyIntTimes s lit068) (pyIntTimes s lit068) (pyIntTimes s lit09) ∧
    opBoxCenter (lockCircle (pyIntTimes s lit068) (pyIntTimes s lit068)
      (pyIntTimes s lit09)) = (pyIntTimes s lit068, pyIntTimes s lit068) :=
  ⟨rfl, opBoxCenter_lockCircle _ _ _, rfl, opBoxCenter_lockCircle _ _ _⟩

theorem c2_badge_center_amended_witness :
    (0 : ℤ) < 1024 ∧
    ((generate_app_icon 1024).ops =
      draw_notebook ((1024 : ℤ).fdiv 2) ((1024 : ℤ).fdiv 2) (pyIntTimes 1024 lit04) WHITE ++
        draw_lock_badge (pyIntTimes 1024 lit07) (pyIntTimes 1024 lit07)
          (pyIntTimes 1024 lit075) ∧
    opBoxCenter (lockCircle (pyIntTimes 1024 lit07) (pyIntTimes 1024 lit07)
      (pyIntTimes 1024 lit075)) = (pyIntTimes 1024 lit07, pyIntTimes 1024 lit07) ∧
    (generate_splash_icon 1024).ops =
      draw_notebook ((1024 : ℤ).fdiv 2) ((1024 : ℤ).fdiv 2) (pyIntTimes 1024 lit035) WHITE ++
        draw_lock_badge (pyIntTimes 1024 lit068) (pyIntTimes 1024 lit068)
          (pyIntTimes 1024 lit09) ∧
    opBoxCenter (lockCircle (pyIntTimes 1024 lit068) (pyIntTimes 1024 lit068)
      (pyIntTimes 1024 lit09)) = (pyIntTimes 1024 lit068, pyIntTimes 1024 lit068)) :=
  ⟨by norm_num, c2_badge_center_amended 1024 (by norm_num)⟩

/-- C3 counterexample: for badge size 8 at centre `(100, 100)`, the white
lock-body rectangle is `[98, 99, 102, 101]`: its top edge is at 99, not at
`center_y - size/4 = 100 - 2 = 98` (the code uses
`y - int(size * 0.6) // 4`). -/
theorem c3_lock_body_cex :
    lockBody 100 100 8 = DrawOp.rectangle 98 99 102 101 WHITE none ∧
    (99 : ℤ) ≠ 100 - 8 / 4 := by
  constructor
  · simp only [lockBody, pit_8_06]
    decide
  · decide

/-- C3 amended: the lock-body rectangle has width `size // 2`, its top edge at
`center_y - int(size * 0.6) // 4` (approximately `center_y - 0.15 * size`, not
`center_y - size / 4`), and height `int(size * 0.6) // 2` (approximately
`0.3 * size`), with the stated approximation bounds. -/
theorem c3_lock_body_amended (x y size : ℤ) (h : 0 < size) :
    lockBody x y size =
      DrawOp.rectangle (x - (size.fdiv 2).fdiv 2) (y - (pyIntTimes size lit06).fdiv 4)
        (x - (size.fdiv 2).fdiv 2 + size.fdiv 2)
        (y - (pyIntTimes size lit06).fdiv 4 + (pyIntTimes size lit06).fdiv 2)
        WHITE none ∧
    (3 / 10 : ℚ) * size - size * (2 : ℚ) ^ (-(50 : ℤ)) - 2 ≤
      ((pyIntTimes size lit06).fdiv 2 : ℚ) ∧
    ((pyIntTimes size lit06).fdiv 2 : ℚ) ≤ (3 / 10 : ℚ) * size + size * (2 : ℚ) ^ (-(50 : ℤ)) ∧
    (3 / 20 : ℚ) * size - size * (2 : ℚ) ^ (-(50 : ℤ)) - 2 ≤
      ((pyIntTimes size lit06).fdiv 4 : ℚ) ∧
    ((pyIntTimes size lit06).fdiv 4 : ℚ) ≤ (3 / 20 : ℚ) * size + size * (2 : ℚ) ^ (-(50 : ℤ)) := by
  have hs : (0 : ℤ) ≤ size := h.le
  have hsQ : (0 : ℚ) ≤ (size : ℚ) := by exact_mod_cast hs
  have hco := pit_coeff size lit06 (6 / 10 - (2 : ℚ) ^ (-(51 : ℤ))) (6 / 10 + (2 : ℚ) ^ (-(51 : ℤ)))
    hs lit06_m_nonneg
    (by rw [lit06_val, epsF]; norm_num [zpow_neg])
    (by rw [lit06_val, epsF]; norm_num [zpow_neg])
  have h2 := fdiv_pos_bounds (pyIntTimes size lit06) 2 (by norm_num)
  have h4 := fdiv_pos_bounds (pyIntTimes size lit06) 4 (by norm_num)
  have h2Q1 : 2 * ((pyIntTimes size lit06).fdiv 2 : ℚ) ≤ (pyIntTimes size lit06 : ℚ) := by
    exact_mod_cast h2.1
  have h2Q2 : (pyIntTimes size lit06 : ℚ) < 2 * ((pyIntTimes size lit06).fdiv 2 : ℚ) + 2 := by
    exact_mod_cast h2.2
  have h4Q1 : 4 * ((pyIntTimes size lit06).fdiv 4 : ℚ) ≤ (pyIntTimes size lit06 : ℚ) := by
    exact_mod_cast h4.1
  have h4Q2 : (pyIntTimes size lit06 : ℚ) < 4 * ((pyIntTimes size lit06).fdiv 4 : ℚ) + 4 := by
    exact_mod_cast h4.2
  have hslack : (2 : ℚ) ^ (-(51 : ℤ)) * 2 ≤ (2 : ℚ) ^ (-(50 : ℤ)) * 2 := by
    norm_num [zpow_neg]
  refine ⟨rfl, ?_, ?_, ?_, ?_⟩
  · nlinarith [hco.1, mul_le_mul_of_nonneg_left hslack hsQ]
  · nlinarith [hco.2, mul_le_mul_of_nonneg_left hslack hsQ]
  · nlinarith [hco.1, mul_le_mul_of_nonneg_left hslack hsQ]
  · nlinarith [hco.2, mul_le_mul_of_nonneg_left hslack hsQ]

theorem c3_lock_body_amended_witness :
    (0 : ℤ) < 100 ∧
    (lockBody 0 0 100 =
      DrawOp.rectangle (0 - ((100 : ℤ).fdiv 2).fdiv 2) (0 - (pyIntTimes 100 lit06).fdiv 4)
        (0 - ((100 : ℤ).fdiv 2).fdiv 2 + (100 : ℤ).fdiv 2)
        (0 - (pyIntTimes 100 lit06).fdiv 4 + (pyIntTimes 100 lit06).fdiv 2)
        WHITE none ∧
    (3 / 10 : ℚ) * 100 - 100 * (2 : ℚ) ^ (-(50 : ℤ)) - 2 ≤
      ((pyIntTimes 100 lit06).fdiv 2 : ℚ) ∧
    ((pyIntTimes 100 lit06).fdiv 2 : ℚ) ≤ (3 / 10 : ℚ) * 100 + 100 * (2 : ℚ) ^ (-(50 : ℤ)) ∧
    (3 / 20 : ℚ) * 100 - 100 * (2 : ℚ) ^ (-(50 : ℤ)) - 2 ≤
      ((pyIntTimes 100 lit06).fdiv 4 : ℚ) ∧
    ((pyIntTimes 100 lit06).fdiv 4 : ℚ) ≤ (3 / 20 : ℚ) * 100 + 100 * (2 : ℚ) ^ (-(50 : ℤ))) :=
  ⟨by norm_num, c3_lock_body_amended 0 0 100 (by norm_num)⟩

theorem alphaAt_of_RGBA (img : PILImage) (hm : img.mode = PILMode.RGBA) (px py : ℤ) :
    alphaAt img px py = (renderPixel img px py).getD 3 0 := by
  rw [alphaAt, hm]

/-- C6: the app icon is an RGB image (no transparency channel, every pixel
fully opaque), while the foreground and splash images are RGBA and every
pixel painted by none of the drawing ops (the notebook glyph and the lock
badge) keeps the fully transparent background, alpha 0. -/
theorem c6_alpha_channels (s px py : ℤ) (h : 0 < s) :
    (generate_app_icon s).mode = PILMode.RGB ∧
    alphaAt (generate_app_icon s) px py = 255 ∧
    (generate_foreground_icon s).mode = PILMode.RGBA ∧
    (generate_splash_icon s).mode = PILMode.RGBA ∧
    ((∀ op ∈ (generate_foreground_icon s).ops, covers op px py = false) →
      alphaAt (generate_foreground_icon s) px py = 0) ∧
    ((∀ op ∈ (generate_splash_icon s).ops, covers op px py = false) →
      alphaAt (generate_splash_icon s) px py = 0) := by
  refine ⟨rfl, rfl, rfl, rfl, ?_, ?_⟩
  · intro hcov
    rw [alphaAt_of_RGBA _ rfl, renderPixel_untouched _ _ _ hcov]
    rfl
  · intro hcov
    rw [alphaAt_of_RGBA _ rfl, renderPixel_untouched _ _ _ hcov]
    rfl

theorem c6_alpha_channels_witness :
    (0 : ℤ) < 16 ∧
    (∀ op ∈ (generate_foreground_icon 16).ops, covers op 0 0 = false) ∧
    alphaAt (generate_foreground_icon 16) 0 0 = 0 ∧
    alphaAt (generate_app_icon 16) 0 0 = 255 := by
  have hcov : ∀ op ∈ (generate_foreground_icon 16).ops, covers op 0 0 = false := by
    simp only [generate_foreground_icon, draw_notebook, draw_lock_badge, notebookBody,
      notebookSpine, pageLine, lockCircle, lockBody, lockShackle, lockKeyhole,
      pit_16_04, pit_16_07, pit_16_075, pit_6_06, pit_1_06]
    decide
  exact ⟨by norm_num, hcov, (c6_alpha_channels 16 0 0 (by norm_num)).2.2.2.2.1 hcov,
    (c6_alpha_channels 16 0 0 (by norm_num)).2.1⟩

/-- C7: `draw_notebook` draws exactly three page-line rectangles after the
body and the spine; line `i` (for `i = 0, 1, 2`) is vertically centred at
`y + (i - 1) * (size // 6)` (so the first lies one interval above the
centre), spans `size // 25 // 2` above and below that centre, has its left
edge `size // 5` right of the body's left edge and width `int(size * 0.6)`;
the stated bounds justify the `0.6 * size`, `size/25`, `size/6` and `size/5`
readings up to the integer rounding. -/
theorem c7_page_lines (x y size : ℤ) (h : 0 < size) :
    draw_notebook x y size WHITE =
      [notebookBody x y size WHITE, notebookSpine x y size,
       pageLine x y size 0, pageLine x y size 1, pageLine x y size 2] ∧
    (∀ i : ℤ, pageLine x y size i =
      DrawOp.rectangle (x - size.fdiv 2 + size.fdiv 5)
        (y + (i - 1) * size.fdiv 6 - (size.fdiv 25).fdiv 2)
        (x - size.fdiv 2 + size.fdiv 5 + pyIntTimes size lit06)
        (y + (i - 1) * size.fdiv 6 + (size.fdiv 25).fdiv 2)
        [230, 230, 230] none) ∧
    (6 / 10 : ℚ) * size - size * (2 : ℚ) ^ (-(50 : ℤ)) - 1 ≤ (pyIntTimes size lit06 : ℚ) ∧
    (pyIntTimes size lit06 : ℚ) ≤ (6 / 10 : ℚ) * size + size * (2 : ℚ) ^ (-(50 : ℤ)) ∧
    (25 * (size.fdiv 25) ≤ size ∧ size < 25 * (size.fdiv 25) + 25) ∧
    (6 * (size.fdiv 6) ≤ size ∧ size < 6 * (size.fdiv 6) + 6) ∧
    (5 * (size.fdiv 5) ≤ size ∧ size < 5 * (size.fdiv 5) + 5) := by
  have hs : (0 : ℤ) ≤ size := h.le
  have hsQ : (0 : ℚ) ≤ (size : ℚ) := by exact_mod_cast hs
  have hco := pit_coeff size lit06 (6 / 10 - (2 : ℚ) ^ (-(51 : ℤ))) (6 / 10 + (2 : ℚ) ^ (-(51 : ℤ)))
    hs lit06_m_nonneg
    (by rw [lit06_val, epsF]; norm_num [zpow_neg])
    (by rw [lit06_val, epsF]; norm_num [zpow_neg])
  have hslack : (2 : ℚ) ^ (-(51 : ℤ)) ≤ (2 : ℚ) ^ (-(50 : ℤ)) := by norm_num [zpow_neg]
  refine ⟨rfl, fun i => rfl, ?_, ?_, fdiv_pos_bounds size 25 (by norm_num),
    fdiv_pos_bounds size 6 (by norm_num), fdiv_pos_bounds size 5 (by norm_num)⟩
  · nlinarith [hco.1, mul_le_mul_of_nonneg_left hslack hsQ]
  · nlinarith [hco.2, mul_le_mul_of_nonneg_left hslack hsQ]

theorem c7_page_lines_witness :
    (0 : ℤ) < 100 ∧
    (draw_notebook 0 0 100 WHITE =
      [notebookBody 0 0 100 WHITE, notebookSpine 0 0 100,
       pageLine 0 0 100 0, pageLine 0 0 100 1, pageLine 0 0 100 2] ∧
    (∀ i : ℤ, pageLine 0 0 100 i =
      DrawOp.rectangle (0 - (100 : ℤ).fdiv 2 + (100 : ℤ).fdiv 5)
        (0 + (i - 1) * (100 : ℤ).fdiv 6 - ((100 : ℤ).fdiv 25).fdiv 2)
        (0 - (100 : ℤ).fdiv 2 + (100 : ℤ).fdiv 5 + pyIntTimes 100 lit06)
        (0 + (i - 1) * (100 : ℤ).fdiv 6 + ((100 : ℤ).fdiv 25).fdiv 2)
        [230, 230, 230] none) ∧
    (6 / 10 : ℚ) * 100 - 100 * (2 : ℚ) ^ (-(50 : ℤ)) - 1 ≤ (pyIntTimes 100 lit06 : ℚ) ∧
    (pyIntTimes 100 lit06 : ℚ) ≤ (6 / 10 : ℚ) * 100 + 100 * (2 : ℚ) ^ (-(50 : ℤ)) ∧
    (25 * ((100 : ℤ).fdiv 25) ≤ 100 ∧ (100 : ℤ) < 25 * ((100 : ℤ).fdiv 25) + 25) ∧
    (6 * ((100 : ℤ).fdiv 6) ≤ 100 ∧ (100 : ℤ) < 6 * ((100 : ℤ).fdiv 6) + 6) ∧
    (5 * ((100 : ℤ).fdiv 5) ≤ 100 ∧ (100 : ℤ) < 5 * ((100 : ℤ).fdiv 5) + 5)) :=
  ⟨by norm_num, c7_page_lines 0 0 100 (by norm_num)⟩

theorem ellipseHits_center (cx cy r : ℤ) (hr : 0 ≤ r) :
    ellipseHits (cx - r) (cy - r) (cx + r) (cy + r) cx cy = true := by
  rw [ellipseHits]
  simp only [Bool.and_eq_true, decide_eq_true_eq]
  refine ⟨⟨⟨⟨by omega, by omega⟩, by omega⟩, by omega⟩, ?_⟩
  rw [show 2 * cx - (cx - r) - (cx + r) = 0 from by ring,
    show 2 * cy - (cy - r) - (cy + r) = 0 from by ring]
  have h3 : cx + r - (cx - r) = 2 * r := by ring
  have h4 : cy + r - (cy - r) = 2 * r := by ring
  rw [h3, h4]
  have h0 : (0 : ℤ) ≤ (2 * r) ^ 2 * (2 * r) ^ 2 := by positivity
  nlinarith [h0]

/-- C10: for badge sizes 1 to 6 the shackle stroke width `size // 7` is 0,
so the arc paints nothing, while the badge circle, the lock body and the
keyhole ops are still issued and each paints at least one pixel. -/
theorem c10_zero_width_shackle (x y size : ℤ) (h1 : 1 ≤ size) (h6 : size ≤ 6) :
    size.fdiv 7 = 0 ∧
    lockShackle x y size =
      DrawOp.arc (x - (size.fdiv 2).fdiv 3)
        (y - (pyIntTimes size lit06).fdiv 2 - (size.fdiv 2).fdiv 3)
        (x + (size.fdiv 2).fdiv 3)
        (y - (pyIntTimes size lit06).fdiv 4) 180 0 WHITE 0 ∧
    (∀ px py : ℤ, covers (lockShackle x y size) px py = false) ∧
    draw_lock_badge x y size =
      [lockCircle x y size, lockBody x y size, lockShackle x y size, lockKeyhole x y size] ∧
    covers (lockCircle x y size) x y = true ∧
    covers (lockKeyhole x y size) x y = true ∧
    covers (lockBody x y size) (x - (size.fdiv 2).fdiv 2)
      (y - (pyIntTimes size lit06).fdiv 4) = true := by
  have hf : size.fdiv 7 = 0 := by
    rw [Int.fdiv_eq_ediv _ (by norm_num : (0 : ℤ) ≤ 7)]
    omega
  have hw : 0 ≤ size.fdiv 2 := by
    rw [Int.fdiv_eq_ediv _ (by norm_num : (0 : ℤ) ≤ 2)]
    omega
  have hh0 : 0 ≤ pyIntTimes size lit06 :=
    pyIntTimes_nonneg size lit06 (by omega) lit06_m_nonneg
  have hh2 : 0 ≤ (pyIntTimes size lit06).fdiv 2 := by
    rw [Int.fdiv_eq_ediv _ (by norm_num : (0 : ℤ) ≤ 2)]
    omega
  have hk8 : 0 ≤ size.fdiv 8 := by
    rw [Int.fdiv_eq_ediv _ (by norm_num : (0 : ℤ) ≤ 8)]
    omega
  refine ⟨hf, ?_, ?_, rfl, ?_, ?_, ?_⟩
  · rw [lockShackle, hf]
  · intro px py
    rw [lockShackle, hf]
    simp [covers]
  · simp only [lockCircle, covers]
    exact ellipseHits_center x y size (by omega)
  · simp only [lockKeyhole, covers]
    exact ellipseHits_center x y (size.fdiv 8) hk8
  · simp only [lockBody, covers, Bool.and_eq_true, decide_eq_true_eq]
    refine ⟨⟨⟨by omega, by omega⟩, by omega⟩, by omega⟩

theorem c10_zero_width_shackle_witness :
    (1 : ℤ) ≤ 6 ∧ (6 : ℤ) ≤ 6 ∧
    ((6 : ℤ).fdiv 7 = 0 ∧
    lockShackle 50 50 6 =
      DrawOp.arc (50 - ((6 : ℤ).fdiv 2).fdiv 3)
        (50 - (pyIntTimes 6 lit06).fdiv 2 - ((6 : ℤ).fdiv 2).fdiv 3)
        (50 + ((6 : ℤ).fdiv 2).fdiv 3)
        (50 - (pyIntTimes 6 lit06).fdiv 4) 180 0 WHITE 0 ∧
    (∀ px py : ℤ, covers (lockShackle 50 50 6) px py = false) ∧
    draw_lock_badge 50 50 6 =
      [lockCircle 50 50 6, lockBody 50 50 6, lockShackle 50 50 6, lockKeyhole 50 50 6] ∧
    covers (lockCircle 50 50 6) 50 50 = true ∧
    covers (lockKeyhole 50 50 6) 50 50 = true ∧
    covers (lockBody 50 50 6) (50 - ((6 : ℤ).fdiv 2).fdiv 2)
      (50 - (pyIntTimes 6 lit06).fdiv 4) = true) :=
  ⟨by norm_num, by norm_num, c10_zero_width_shackle 50 50 6 (by norm_num) (by norm_num)⟩

/-- C9: for every size `s ≥ 1`, the badge circle of each generator — centre
`(int(0.7*s), int(0.7*s))` with radius `int(0.075*s)` for the app and
foreground icons, centre `(int(0.68*s), int(0.68*s))` with radius
`int(0.09*s)` for the splash icon — has its bounding box inside the `s x s`
canvas (pixel coordinates 0 to `s - 1`), so the badge is never clipped. -/
theorem c9_badge_disc_in_canvas (s : ℤ) (h : 1 ≤ s) :
    (generate_app_icon s).width = s ∧ (generate_app_icon s).height = s ∧
    (generate_splash_icon s).width = s ∧ (generate_splash_icon s).height = s ∧
    lockCircle (pyIntTimes s lit07) (pyIntTimes s lit07) (pyIntTimes s lit075) ∈
      (generate_app_icon s).ops ∧
    lockCircle (pyIntTimes s lit07) (pyIntTimes s lit07) (pyIntTimes s lit075) ∈
      (generate_foreground_icon s).ops ∧
    lockCircle (pyIntTimes s lit068) (pyIntTimes s lit068) (pyIntTimes s lit09) ∈
      (generate_splash_icon s).ops ∧
    0 ≤ pyIntTimes s lit07 - pyIntTimes s lit075 ∧
    pyIntTimes s lit07 + pyIntTimes s lit075 ≤ s - 1 ∧
    0 ≤ pyIntTimes s lit068 - pyIntTimes s lit09 ∧
    pyIntTimes s lit068 + pyIntTimes s lit09 ≤ s - 1 := by
  have hmem1 : lockCircle (pyIntTimes s lit07) (pyIntTimes s lit07) (pyIntTimes s lit075) ∈
      (generate_app_icon s).ops :=
    List.mem_append_right _ (List.mem_cons_self _ _)
  have hmem2 : lockCircle (pyIntTimes s lit07) (pyIntTimes s lit07) (pyIntTimes s lit075) ∈
      (generate_foreground_icon s).ops :=
    List.mem_append_right _ (List.mem_cons_self _ _)
  have hmem3 : lockCircle (pyIntTimes s lit068) (pyIntTimes s lit068) (pyIntTimes s lit09) ∈
      (generate_splash_icon s).ops :=
    List.mem_append_right _ (List.mem_cons_self _ _)
  refine ⟨rfl, rfl, rfl, rfl, hmem1, hmem2, hmem3, ?_⟩
  by_cases hs4 : s ≤ 4
  · have h14 : s = 1 ∨ s = 2 ∨ s = 3 ∨ s = 4 := by omega
    rcases h14 with hv | hv | hv | hv <;> subst hv
    · rw [pit_1_07, pit_1_075, pit_1_068, pit_1_09]
      omega
    · rw [pit_2_07, pit_2_075, pit_2_068, pit_2_09]
      omega
    · rw [pit_3_07, pit_3_075, pit_3_068, pit_3_09]
      omega
    · rw [pit_4_07, pit_4_075, pit_4_068, pit_4_09]
      omega
  · have hs5 : (5 : ℤ) ≤ s := by omega
    have hs0 : (0 : ℤ) ≤ s := by omega
    have hsQ : (5 : ℚ) ≤ (s : ℚ) := by exact_mod_cast hs5
    have h07 := pit_coeff s lit07 (6999 / 10000) (7001 / 10000) hs0 lit07_m_nonneg
      (by rw [lit07_val, epsF]; norm_num [zpow_neg])
      (by rw [lit07_val, epsF]; norm_num [zpow_neg])
    have h075 := pit_coeff s lit075 (749 / 10000) (751 / 10000) hs0 lit075_m_nonneg
      (by rw [lit075_val, epsF]; norm_num [zpow_neg])
      (by rw [lit075_val, epsF]; norm_num [zpow_neg])
    have h068 := pit_coeff s lit068 (6799 / 10000) (6801 / 10000) hs0 lit068_m_nonneg
      (by rw [lit068_val, epsF]; norm_num [zpow_neg])
      (by rw [lit068_val, epsF]; norm_num [zpow_neg])
    have h09 := pit_coeff s lit09 (899 / 10000) (901 / 10000) hs0 lit09_m_nonneg
      (by rw [lit09_val, epsF]; norm_num [zpow_neg])
      (by rw [lit09_val, epsF]; norm_num [zpow_neg])
    have h075n : 0 ≤ pyIntTimes s lit075 := pyIntTimes_nonneg s lit075 hs0 lit075_m_nonneg
    have h09n : 0 ≤ pyIntTimes s lit09 := pyIntTimes_nonneg s lit09 hs0 lit09_m_nonneg
    refine ⟨?_, ?_, ?_, ?_⟩
    · have hq : (-1 : ℚ) < ((pyIntTimes s lit07 - pyIntTimes s lit075 : ℤ) : ℚ) := by
        push_cast
        linarith [h07.1, h075.2]
      have hZ : (-1 : ℤ) < pyIntTimes s lit07 - pyIntTimes s lit075 := by exact_mod_cast hq
      omega
    · have hq : ((pyIntTimes s lit07 + pyIntTimes s lit075 : ℤ) : ℚ) ≤ ((s - 1 : ℤ) : ℚ) := by
        push_cast
        linarith [h07.2, h075.2]
      exact_mod_cast hq
    · have hq : (-1 : ℚ) < ((pyIntTimes s lit068 - pyIntTimes s lit09 : ℤ) : ℚ) := by
        push_cast
        linarith [h068.1, h09.2]
      have hZ : (-1 : ℤ) < pyIntTimes s lit068 - pyIntTimes s lit09 := by exact_mod_cast hq
      omega
    · have hq : ((pyIntTimes s lit068 + pyIntTimes s lit09 : ℤ) : ℚ) ≤ ((s - 1 : ℤ) : ℚ) := by
        push_cast
        linarith [h068.2, h09.2]
      exact_mod_cast hq

theorem c9_badge_disc_in_canvas_witness :
    (1 : ℤ) ≤ 512 ∧
    ((generate_app_icon 512).width = 512 ∧ (generate_app_icon 512).height = 512 ∧
    (generate_splash_icon 512).width = 512 ∧ (generate_splash_icon 512).height = 512 ∧
    lockCircle (pyIntTimes 512 lit07) (pyIntTimes 512 lit07) (pyIntTimes 512 lit075) ∈
      (generate_app_icon 512).ops ∧
    lockCircle (pyIntTimes 512 lit07) (pyIntTimes 512 lit07) (pyIntTimes 512 lit075) ∈
      (generate_foreground_icon 512).ops ∧
    lockCircle (pyIntTimes 512 lit068) (pyIntTimes 512 lit068) (pyIntTimes 512 lit09) ∈
      (generate_splash_icon 512).ops ∧
    0 ≤ pyIntTimes 512 lit07 - pyIntTimes 512 lit075 ∧
    pyIntTimes 512 lit07 + pyIntTimes 512 lit075 ≤ 512 - 1 ∧
    0 ≤ pyIntTimes 512 lit068 - pyIntTimes 512 lit09 ∧
    pyIntTimes 512 lit068 + pyIntTimes 512 lit09 ≤ 512 - 1) :=
  ⟨by norm_num, c9_badge_disc_in_canvas 512 (by norm_num)⟩

end IconGen
